import Mathlib

/-!
Belly Button Biodiversity dashboard, `script.js`.

A shallow embedding of the dashboard script (`init`, `BarChart`, `BubbleChart`,
`updateData`) and the properties of it that its specification states.

Conventions of the embedding.

* JavaScript numbers are exact rationals. Subject ids and OTU identifiers are
  integers (they are used as property keys and inside strings, where their
  decimal form matters); abundance values are rationals. Every arithmetic
  step of the script (`/ 2`, `2.5 *`, `+ 100`) is exact on them.
* `undefined` and `NaN` are `none` of an `Option`.
* A scene records, for every mark, the datum bound to it and the attributes
  computed from it; axes, grid lines, colours and fonts are left out.
* A function that can throw returns the page as it stands at the throw
  together with the error.
* The metadata table body is the list of its children. A row fragment whose
  key and value are plain text adds one row of two cells; a fragment that
  holds markup is kept as its HTML text.
-/

namespace BellyButton

/-! ## Values of the data resource -/

/-- A scalar value of a demographic field. -/
inductive Scalar where
  | int (n : Int)
  | str (s : String)
  | null
  deriving DecidableEq

/-- String conversion of a scalar inside a template literal. -/
def Scalar.toText : Scalar → String
  | .int n => toString n
  | .str s => s
  | .null => "null"

/-- One entry of `metadata`, a parsed object `{..., id, <demographic fields>...}`:
its `id`, the own properties created before `id` and those created after it,
each list in creation order. Being properties of one object, the keys are
distinct and none of them is `id`. -/
structure MetadataRecord where
  id : Int
  fields : List (String × Scalar)
  before : List (String × Scalar) := []
  deriving DecidableEq

/-- One entry of `samples`: two parallel arrays. -/
structure SampleRecord where
  id : Int
  otu_ids : List Int
  sample_values : List ℚ
  deriving DecidableEq

/-- The document loaded from `data/samples.json`. -/
structure Dataset where
  metadata : List MetadataRecord
  samples : List SampleRecord
  deriving DecidableEq

/-- The own properties of a metadata record in creation order. -/
def ownProperties (r : MetadataRecord) : List (String × Scalar) :=
  r.before ++ ("id", Scalar.int r.id) :: r.fields

/-- The number a string of decimal digits denotes, read from the left with `n`
the number read so far. -/
def digitsValue : List Char → Nat → Nat
  | [], n => n
  | c :: cs, n => digitsValue cs (10 * n + (c.toNat - 48))

/-- The array index a property key denotes, if it is one: a canonical decimal
numeral (no leading zero, except `0` itself) below `2^32 - 1`. -/
def arrayIndex (key : String) : Option Nat :=
  match key.data with
  | [] => none
  | c :: cs =>
    if (c :: cs).all Char.isDigit && (c != '0' || cs.isEmpty) then
      if digitsValue (c :: cs) 0 < 4294967295 then some (digitsValue (c :: cs) 0)
      else none
    else none

/-- The order of two properties whose keys are array indices. -/
def indexLE (a b : String × Scalar) : Prop :=
  (arrayIndex a.1).getD 0 ≤ (arrayIndex b.1).getD 0

instance indexLE_decidable : DecidableRel indexLE :=
  fun a b => Nat.decLe ((arrayIndex a.1).getD 0) ((arrayIndex b.1).getD 0)

/-- The own enumerable properties of a metadata record as
`Object.entries(metadata)` lists them: the properties whose key is an array
index first, in ascending order of the index, then the other properties in
creation order. -/
def Object_entries (r : MetadataRecord) : List (String × Scalar) :=
  ((ownProperties r).filter (fun kv => (arrayIndex kv.1).isSome)).insertionSort indexLE ++
    (ownProperties r).filter (fun kv => !(arrayIndex kv.1).isSome)

/-- An element `{sample_values: x[i], otu_ids: y[i]}` of `xy_map`. The
identifier is `none` when `y[i]` reads past the end of `otu_ids`. -/
structure OTURecord where
  sample_values : ℚ
  otu_ids : Option Int
  deriving DecidableEq

/-- An error thrown by the runtime. -/
inductive JSError where
  | TypeError
  deriving DecidableEq

/-! ## The id-index map `sample_data_map` -/

/-- The object `sample_data_map`: its own properties, keyed by subject id. -/
abbrev IndexMap := List (Int × Nat)

/-- The assignment `map[k] = v`: overwrite the property when it exists, add it
otherwise. -/
def mapSet : IndexMap → Int → Nat → IndexMap
  | [], k, v => [(k, v)]
  | (k0, v0) :: rest, k, v =>
    if k0 = k then (k, v) :: rest else (k0, v0) :: mapSet rest k v

/-- The read `map[k]`; `none` is `undefined`. -/
def mapGet : IndexMap → Int → Option Nat
  | [], _ => none
  | (k0, v0) :: rest, k => if k0 = k then some v0 else mapGet rest k

/-- The property names of the map. -/
def mapKeys (m : IndexMap) : List Int := m.map Prod.fst

/-! ## Library functions the script calls -/

/-- Modelled from the spec: `d3.map(data, f)` of the charting capability, the
array of `f(d)` over the data in order. -/
def d3map {α β : Type} (data : List α) (f : α → β) : List β := data.map f

/-- Modelled from the spec: `d3.max(values)` of the charting capability. It
scans the values in order, skips undefined ones, keeps the first value and
then every strictly greater one; `none` (undefined) when no value is
defined. -/
def d3max {α : Type} [LinearOrder α] (values : List (Option α)) : Option α :=
  values.foldl (fun max value =>
    match value, max with
    | some v, some m => if m < v then some v else some m
    | some v, none => some v
    | none, max => max) none

/-- The search loop of `Array.prototype.indexOf`, counting from position `i`. -/
def indexOfFrom {α : Type} [DecidableEq α] : List α → α → Nat → Int
  | [], _, _ => -1
  | a :: rest, x, i => if a = x then (i : Int) else indexOfFrom rest x (i + 1)

/-- The method `A.indexOf(x)`: position of the first element equal to `x`,
and `-1` when there is none. -/
def indexOf {α : Type} [DecidableEq α] (A : List α) (x : α) : Int :=
  indexOfFrom A x 0

/-- Modelled from the spec: `new d3.InternSet(values)` of the charting
capability, the distinct values in first-seen order. -/
def InternSet (values : List String) : List String :=
  values.foldl (fun s v => if v ∈ s then s else s ++ [v]) []

/-- Modelled from the spec: a linear scale of the charting capability,
`d3.scaleLinear().domain([d0, d1]).range([r0, r1])` applied to `x`. The input
is normalised over the domain (to `0.5` when the domain is a single point) and
interpolated over the range as `a * (1 - t) + b * t`. An undefined input or
domain end gives no position. -/
def scaleLinear (domain : ℚ × Option ℚ) (range : ℚ × ℚ) (x : Option ℚ) :
    Option ℚ :=
  match domain.2, x with
  | some d1, some x =>
    let d0 := domain.1
    if d1 < d0 then
      let t := (x - d1) / (d0 - d1)
      some (range.2 * (1 - t) + range.1 * t)
    else
      let t := if d1 - d0 = 0 then 1 / 2 else (x - d0) / (d1 - d0)
      some (range.1 * (1 - t) + range.2 * t)
  | _, _ => none

/-! ## Chart renderers -/

/-- A `rect` of the bar chart: the index `i` bound to it, the category `Y[i]`
that places it on the band axis and the value `X[i]` that gives its width. -/
structure Bar where
  datum : Nat
  category : String
  value : ℚ
  deriving DecidableEq

/-- The scene `BarChart` returns. -/
structure BarScene where
  xDomain : ℚ × Option ℚ
  yDomain : List String
  bars : List Bar
  caption : String
  deriving DecidableEq

/-- The function `BarChart(data, {x, y, xDomain, yDomain, sample_id})`; an
option the caller leaves out is `none`. -/
def BarChart {δ : Type} (data : List δ) (x : δ → ℚ) (y : δ → String)
    (xDomain : Option (ℚ × Option ℚ)) (yDomain : Option (List String))
    (sample_id : Int) : BarScene :=
  -- Compute values.
  let X := d3map data x
  let Y := d3map data y
  -- Compute default domains, and unique the y-domain.
  let xDomain := match xDomain with
    | none => (0, d3max (X.map some))
    | some dom => dom
  let yDomain := match yDomain with
    | none => Y
    | some dom => dom
  let yDomain := InternSet yDomain
  -- Omit any data not present in the y-domain.
  let I := (List.range X.length).filter (fun i =>
    match Y[i]? with
    | some c => decide (c ∈ yDomain)
    | none => false)
  -- Draw the bars.
  let bars := I.filterMap (fun i =>
    match X[i]?, Y[i]? with
    | some v, some c => some { datum := i, category := c, value := v }
    | _, _ => none)
  { xDomain := xDomain
    yDomain := yDomain
    bars := bars
    caption := "Top 10 OTUs Found In Subject ID " ++ toString sample_id }

/-- A `circle` of the bubble chart. -/
structure Circle where
  cx : Option ℚ
  cy : Option ℚ
  r : ℚ
  deriving DecidableEq

/-- The scene `BubbleChart` returns. -/
structure BubbleScene where
  width : ℚ
  height : ℚ
  xDomain : ℚ × Option ℚ
  yDomain : ℚ × Option ℚ
  circles : List Circle
  deriving DecidableEq

/-- The function `BubbleChart(data)`. -/
def BubbleChart (data : List OTURecord) : BubbleScene :=
  let X := d3map data (fun d => d.otu_ids)
  let Y := d3map data (fun d => some d.sample_values)
  -- Set the dimensions of the chart
  let width : ℚ := 1200
  let height : ℚ := 350
  -- get max values for x and y
  let xMax := d3max X
  let yMax := d3max Y
  -- get corresponding values for xMax and yMax
  let xMaxValue := indexOf X xMax
  -- Set the scales for the chart
  let xDomain : ℚ × Option ℚ :=
    (0, xMax.map (fun (m : Int) => (m : ℚ) + (xMaxValue : ℚ) / 2 + 100))
  let xScale := scaleLinear xDomain (0, width)
  let maxYHeight := yMax.map (fun m => 2.5 * m)
  let yDomain : ℚ × Option ℚ := (0, maxYHeight)
  let yScale := scaleLinear yDomain (height, 0)
  -- draw bubbles
  let circles := data.map (fun d =>
    { cx := xScale (d.otu_ids.map (fun (n : Int) => (n : ℚ)))
      cy := yScale (some d.sample_values)
      r := d.sample_values / 2 : Circle })
  { width := width
    height := height
    xDomain := xDomain
    yDomain := yDomain
    circles := circles }

/-! ## The page and the view controller -/

/-- A child of a chart container. -/
inductive Node where
  | barChart (svg : BarScene)
  | bubbleChart (svg : BubbleScene)
  | other (html : String)
  deriving DecidableEq

/-- A child of the metadata table body: a row `tr` whose `th` shows `key` and
whose `td` shows `value`, or the nodes the parser builds from a row fragment
whose key or value holds markup, kept as the text of the fragment (their
structure is not part of the embedding). -/
inductive Row where
  | cells (key : String) (value : String)
  | markup (html : String)
  deriving DecidableEq

/-- A text the HTML parser reads as itself: it holds no `<`, no `&`, no
carriage return and no NUL. -/
def plainText (s : String) : Bool :=
  s.data.all (fun c => c != '<' && c != '&' && c.toNat != 13 && c.toNat != 0)

/-- The template literal of `updateData` that makes the HTML of one row. -/
def rowTemplate (key value : String) : String :=
  "\n        <tr>\n        <th scope=\"row\" class=\"text-capitalize\">" ++ key ++
    "</th>\n        <td>" ++ value ++ "</td>"

/-- Modelled from the spec: the statement `demographicInfo.innerHTML += row`
on the metadata table body, with `row` the template filled with `key` and
`value`. The rows already there are kept and the fragment adds one row of two
cells showing `key` and `value` when both are plain text; what it adds
otherwise is left to the parser. -/
def innerHTML_append (rows : List Row) (key value : String) : List Row :=
  rows ++ [if plainText key && plainText value then Row.cells key value
    else Row.markup (rowTemplate key value)]

/-- An entry of the selector menu: the link text and the id its click handler
passes to `updateData`. -/
structure MenuItem where
  text : String
  onClick : Int
  deriving DecidableEq

/-- The globals of the script and the regions of the page it writes. -/
structure State where
  sample_data : Dataset
  sample_data_map : IndexMap
  dropdown : List MenuItem
  otu_chart : List Node
  bubble_chart : List Node
  sample_metadata : List Row
  dropdownMenuButton1 : String
  deriving DecidableEq

/-- How a call ends: the state it leaves and the error it threw, if any. -/
structure Outcome where
  state : State
  thrown : Option JSError
  deriving DecidableEq

/-- The array read `A[i]` with `i` possibly undefined. -/
def elemAt {α : Type} (A : List α) (i : Option Nat) : Option α :=
  match i with
  | some k => A[k]?
  | none => none

/-- The loop of `updateData` that builds `xy_map`: one record per position of
`x`, paired with `y` at the same position. -/
def xy_map (x : List ℚ) (y : List Int) : List OTURecord :=
  (List.range x.length).filterMap (fun i =>
    match x[i]? with
    | some v => some { sample_values := v, otu_ids := y[i]? }
    | none => none)

/-- The string concatenation `"OTU" + d.otu_ids`. -/
def otuLabel (d : OTURecord) : String :=
  match d.otu_ids with
  | some n => "OTU" ++ toString n
  | none => "OTUundefined"

/-- The function `updateData(sample_id)`. -/
def updateData (st : State) (sample_id : Int) : Outcome :=
  let sample_index := mapGet st.sample_data_map sample_id
  match elemAt st.sample_data.samples sample_index with
  | none => { state := st, thrown := some JSError.TypeError }
  | some sample =>
    let x := sample.sample_values
    let y := sample.otu_ids
    -- create x-y map
    let xy := xy_map x y
    let svgElement := BarChart (xy.take 10) (fun d => d.sample_values) otuLabel
      none none sample_id
    let st := { st with otu_chart := [Node.barChart svgElement] }
    -- load bubble chart
    let bubbleChart := BubbleChart xy
    let st := { st with bubble_chart := [Node.bubbleChart bubbleChart] }
    -- load Demographic Info
    let metadata := elemAt st.sample_data.metadata sample_index
    let st := { st with sample_metadata := [] }
    match metadata with
    | none => { state := st, thrown := some JSError.TypeError }
    | some metadata =>
      let st := (Object_entries metadata).foldl (fun st kv =>
        { st with sample_metadata :=
            innerHTML_append st.sample_metadata kv.1 kv.2.toText }) st
      -- update dropdown
      { state := { st with dropdownMenuButton1 := toString sample_id }
        thrown := none }

/-- The loop of `init` that fills the id-index map, run over positions
`0 .. n - 1` of `metadata`. -/
def init_index (metadata : List MetadataRecord) (n : Nat) (m : IndexMap) :
    IndexMap :=
  (List.range n).foldl (fun m i =>
    match metadata[i]? with
    | some r => mapSet m r.id i
    | none => m) m

/-- The function `init()`, given the document the fetch resolves to. -/
def init (st : State) (loaded : Dataset) : Outcome :=
  let st := { st with sample_data := loaded }
  -- create sample metadata id-index map
  let n := st.sample_data.metadata.length
  let st := { st with
    sample_data_map := init_index st.sample_data.metadata n st.sample_data_map }
  -- get metadata
  let metadata := st.sample_data.metadata
  -- put metadata into dropdown menu
  let st := metadata.foldl (fun st sample =>
    let link : MenuItem := { text := toString sample.id, onClick := sample.id }
    { st with dropdown := st.dropdown ++ [link] }) st
  -- load default data
  match metadata[0]? with
  | none => { state := st, thrown := some JSError.TypeError }
  | some first => updateData st first.id

/-- The page before `init` runs: empty globals and the given regions. -/
def pageLoad (otu bubble : List Node) (rows : List Row) (label : String) :
    State :=
  { sample_data := { metadata := [], samples := [] }
    sample_data_map := []
    dropdown := []
    otu_chart := otu
    bubble_chart := bubble
    sample_metadata := rows
    dropdownMenuButton1 := label }

/-- The scenario of the specification: two subjects. -/
def scenario : Dataset :=
  { metadata := [{ id := 1, fields := [("age", Scalar.int 24)] },
                 { id := 2, fields := [("gender", Scalar.str "F")] }]
    samples := [{ id := 1, otu_ids := [10, 20], sample_values := [5, 50] },
                { id := 2, otu_ids := [30], sample_values := [15] }] }

/-- The state of the page once `init` has run on the scenario from a page whose
regions are empty and whose selector label is `Select`. -/
def scenarioState : State :=
  (init (pageLoad [] [] [] "Select") scenario).state

/-- A document whose only subject has 12 paired records, with values in
increasing order and a repeated identifier. -/
def crowded : Dataset :=
  { metadata := [{ id := 940, fields := [("bbtype", Scalar.str "I")] }]
    samples := [{ id := 940
                  otu_ids := [7, 7, 3, 4, 5, 6, 7, 8, 9, 10, 11, 12]
                  sample_values := [1, 2, 3, 4, 5, 6, 7, 8, 9, 10, 11, 12] }] }

/-- The state of the page once `init` has run on `crowded`. -/
def crowdedState : State :=
  (init (pageLoad [] [] [] "Select") crowded).state

/-- A document whose only subject has two fields keyed by array indices,
written out of order, around its `id`. -/
def indexed : Dataset :=
  { metadata := [{ id := 1
                   before := [("ethnicity", Scalar.str "Caucasian"), ("10", Scalar.int 3)]
                   fields := [("7", Scalar.str "x"), ("age", Scalar.int 24),
                              ("wfreq", Scalar.null)] }]
    samples := [{ id := 1, otu_ids := [10], sample_values := [5] }] }

/-- The state of the page once `init` has run on `indexed`. -/
def indexedState : State :=
  (init (pageLoad [] [] [] "Select") indexed).state

/-- A document whose only subject has a field value that holds markup. -/
def injected : Dataset :=
  { metadata := [{ id := 1
                   fields := [("location",
                     Scalar.str "NC</td></tr><tr><th>extra</th><td>row")] }]
    samples := [{ id := 1, otu_ids := [10], sample_values := [5] }] }

/-- The state of the page once `init` has run on `injected`. -/
def injectedState : State :=
  (init (pageLoad [] [] [] "Select") injected).state

/-- A document whose only subject has no entry in `samples`. -/
def orphan : Dataset :=
  { metadata := [{ id := 1, fields := [] }]
    samples := [] }

/-- The state of the page once `init` has run on `orphan`. -/
def orphanState : State :=
  (init (pageLoad [] [] [] "Select") orphan).state

/-! ## Auxiliary notions of the proofs -/

/-- The entry the loop leaves for `id` after `n` rounds: the greatest position
below `n` that carries `id`. -/
def LastAt (metadata : List MetadataRecord) (n : Nat) (id : Int) (i : Nat) : Prop :=
  i < n ∧ (∃ r, metadata[i]? = some r ∧ r.id = id) ∧
    ∀ j r, i < j → j < n → metadata[j]? = some r → r.id ≠ id

/-- The rows `updateData` writes for a metadata record. -/
def metadataRows (r : MetadataRecord) : List Row :=
  (Object_entries r).foldl (fun rows kv => innerHTML_append rows kv.1 kv.2.toText) []

/-- The bar scene `updateData` draws for a sample record. -/
def barOf (sample : SampleRecord) (sample_id : Int) : BarScene :=
  BarChart ((xy_map sample.sample_values sample.otu_ids).take 10)
    (fun d => d.sample_values) otuLabel none none sample_id

/-! ## Lemmas on the id-index map -/

theorem mapGet_mapSet (m : IndexMap) (k : Int) (v : Nat) (k1 : Int) :
    mapGet (mapSet m k v) k1 = if k = k1 then some v else mapGet m k1 := by
  induction m with
  | nil => simp [mapSet, mapGet]
  | cons e rest ih =>
    obtain ⟨k0, v0⟩ := e
    by_cases h0 : k0 = k
    · subst h0
      by_cases h1 : k0 = k1 <;> simp [mapSet, mapGet, h1]
    · by_cases h1 : k0 = k1
      · subst h1
        simp [mapSet, mapGet, h0, Ne.symm h0]
      · simp [mapSet, mapGet, h0, h1, ih]

theorem mem_mapKeys_mapSet (m : IndexMap) (k : Int) (v : Nat) (k1 : Int) :
    k1 ∈ mapKeys (mapSet m k v) ↔ k1 = k ∨ k1 ∈ mapKeys m := by
  induction m with
  | nil => simp [mapSet, mapKeys]
  | cons e rest ih =>
    obtain ⟨k0, v0⟩ := e
    by_cases h0 : k0 = k
    · subst h0
      simp [mapSet, mapKeys]
    · have ih1 : k1 ∈ List.map Prod.fst (mapSet rest k v) ↔
          k1 = k ∨ k1 ∈ List.map Prod.fst rest := ih
      simp only [mapSet, h0, if_false, mapKeys, List.map_cons, List.mem_cons, ih1]
      tauto

theorem nodup_mapKeys_mapSet (m : IndexMap) (k : Int) (v : Nat)
    (h : (mapKeys m).Nodup) : (mapKeys (mapSet m k v)).Nodup := by
  induction m with
  | nil => simp [mapSet, mapKeys]
  | cons e rest ih =>
    obtain ⟨k0, v0⟩ := e
    have hn : k0 ∉ mapKeys rest ∧ (mapKeys rest).Nodup := by
      simpa [mapKeys] using h
    by_cases h0 : k0 = k
    · subst h0
      simpa [mapSet, mapKeys] using h
    · have h1 : k0 ∉ mapKeys (mapSet rest k v) := by
        rw [mem_mapKeys_mapSet]
        rintro (h2 | h2)
        · exact h0 h2
        · exact hn.1 h2
      have h2 := ih hn.2
      simp only [mapSet, h0, if_false]
      exact List.nodup_cons.mpr ⟨h1, h2⟩

theorem mem_mapKeys_iff (m : IndexMap) (k : Int) :
    k ∈ mapKeys m ↔ ∃ i, mapGet m k = some i := by
  induction m with
  | nil => simp [mapKeys, mapGet]
  | cons e rest ih =>
    obtain ⟨k0, v0⟩ := e
    have ih1 : k ∈ List.map Prod.fst rest ↔ ∃ i, mapGet rest k = some i := ih
    by_cases h0 : k0 = k
    · subst h0
      simp [mapKeys, mapGet]
    · simp only [mapKeys, List.map_cons, List.mem_cons, mapGet, h0, if_false, ih1]
      constructor
      · rintro (h | h)
        · exact absurd h.symm h0
        · exact h
      · intro h
        exact Or.inr h

theorem init_index_succ (metadata : List MetadataRecord) (n : Nat) (m : IndexMap) :
    init_index metadata (n + 1) m =
      match metadata[n]? with
      | some r => mapSet (init_index metadata n m) r.id n
      | none => init_index metadata n m := by
  simp [init_index, List.range_succ, List.foldl_append]

theorem init_index_inv (metadata : List MetadataRecord) (n : Nat)
    (hn : n ≤ metadata.length) :
    (mapKeys (init_index metadata n [])).Nodup ∧
    ∀ id i, mapGet (init_index metadata n []) id = some i ↔ LastAt metadata n id i := by
  induction n with
  | zero =>
    refine ⟨by simp [init_index, mapKeys], ?_⟩
    intro id i
    simp [init_index, mapGet, LastAt]
  | succ n ih =>
    obtain ⟨hnd, hget⟩ := ih (Nat.le_of_succ_le hn)
    have hlt : n < metadata.length := hn
    have hr : metadata[n]? = some metadata[n] := List.getElem?_eq_getElem hlt
    rw [init_index_succ, hr]
    refine ⟨nodup_mapKeys_mapSet _ _ _ hnd, ?_⟩
    intro id i
    rw [mapGet_mapSet]
    by_cases hid : metadata[n].id = id
    · simp only [hid, if_true, Option.some.injEq]
      constructor
      · intro h
        subst h
        refine ⟨Nat.lt_succ_self _, ⟨metadata[n], hr, hid⟩, ?_⟩
        intro j r h1 h2
        omega
      · rintro ⟨h1, _, h3⟩
        by_contra hne
        have hlt2 : i < n := by omega
        exact h3 n metadata[n] hlt2 (Nat.lt_succ_self _) hr hid
    · simp only [hid, if_false, hget]
      constructor
      · rintro ⟨h1, h2, h3⟩
        refine ⟨Nat.lt_succ_of_lt h1, h2, ?_⟩
        intro j r h4 h5 h6
        by_cases hj : j = n
        · subst hj
          rw [hr] at h6
          cases h6
          exact hid
        · exact h3 j r h4 (by omega) h6
      · rintro ⟨h1, h2, h3⟩
        have hi : i ≠ n := by
          rintro rfl
          obtain ⟨r, h4, h5⟩ := h2
          rw [hr] at h4
          cases h4
          exact hid h5
        refine ⟨by omega, h2, ?_⟩
        intro j r h4 h5 h6
        exact h3 j r h4 (by omega) h6

/-! ## Closed forms of the two loops that write the page -/

theorem rows_foldl (entries : List (String × Scalar)) (st : State) :
    entries.foldl (fun st kv =>
        { st with sample_metadata :=
            innerHTML_append st.sample_metadata kv.1 kv.2.toText }) st =
      { st with
        sample_metadata := entries.foldl
          (fun rows kv => innerHTML_append rows kv.1 kv.2.toText) st.sample_metadata } := by
  induction entries generalizing st with
  | nil => simp
  | cons e rest ih => simp [List.foldl_cons, ih]

theorem menu_foldl (metadata : List MetadataRecord) (st : State) :
    metadata.foldl (fun st sample =>
        let link : MenuItem := { text := toString sample.id, onClick := sample.id }
        { st with dropdown := st.dropdown ++ [link] }) st =
      { st with dropdown := st.dropdown ++
          metadata.map (fun sample => { text := toString sample.id, onClick := sample.id }) } := by
  induction metadata generalizing st with
  | nil => simp
  | cons e rest ih => simp [List.foldl_cons, ih]

theorem updateData_throw_first (st : State) (sample_id : Int)
    (h : elemAt st.sample_data.samples (mapGet st.sample_data_map sample_id) = none) :
    updateData st sample_id = { state := st, thrown := some JSError.TypeError } := by
  simp [updateData, h]

theorem updateData_throw_second (st : State) (sample_id : Int) (sample : SampleRecord)
    (h : elemAt st.sample_data.samples (mapGet st.sample_data_map sample_id) = some sample)
    (h2 : elemAt st.sample_data.metadata (mapGet st.sample_data_map sample_id) = none) :
    updateData st sample_id =
      { state := { st with
          otu_chart := [Node.barChart (barOf sample sample_id)]
          bubble_chart :=
            [Node.bubbleChart (BubbleChart (xy_map sample.sample_values sample.otu_ids))]
          sample_metadata := [] }
        thrown := some JSError.TypeError } := by
  simp [updateData, h, h2, barOf]

theorem updateData_complete (st : State) (sample_id : Int) (sample : SampleRecord)
    (metadata : MetadataRecord)
    (h : elemAt st.sample_data.samples (mapGet st.sample_data_map sample_id) = some sample)
    (h2 : elemAt st.sample_data.metadata (mapGet st.sample_data_map sample_id) =
      some metadata) :
    updateData st sample_id =
      { state := { st with
          otu_chart := [Node.barChart (barOf sample sample_id)]
          bubble_chart :=
            [Node.bubbleChart (BubbleChart (xy_map sample.sample_values sample.otu_ids))]
          sample_metadata := metadataRows metadata
          dropdownMenuButton1 := toString sample_id }
        thrown := none } := by
  simp [updateData, h, h2, barOf, rows_foldl, metadataRows]

theorem updateData_globals (st : State) (sample_id : Int) :
    (updateData st sample_id).state.sample_data = st.sample_data ∧
    (updateData st sample_id).state.sample_data_map = st.sample_data_map ∧
    (updateData st sample_id).state.dropdown = st.dropdown := by
  cases h : elemAt st.sample_data.samples (mapGet st.sample_data_map sample_id) with
  | none => simp [updateData_throw_first st sample_id h]
  | some sample =>
    cases h2 : elemAt st.sample_data.metadata (mapGet st.sample_data_map sample_id) with
    | none => simp [updateData_throw_second st sample_id sample h h2]
    | some metadata => simp [updateData_complete st sample_id sample metadata h h2]

theorem init_map (st : State) (loaded : Dataset) :
    (init st loaded).state.sample_data_map =
      init_index loaded.metadata loaded.metadata.length st.sample_data_map := by
  unfold init
  simp only [menu_foldl]
  cases h : loaded.metadata[0]? with
  | none => simp [h]
  | some first => simp [h, (updateData_globals _ _).2.1]

theorem mem_mapKeys_init_index (metadata : List MetadataRecord) (n : Nat) (k : Int) :
    k ∈ mapKeys (init_index metadata n []) ↔
      ∃ i r, i < n ∧ metadata[i]? = some r ∧ r.id = k := by
  induction n with
  | zero => simp [init_index, mapKeys]
  | succ n ih =>
    rw [init_index_succ]
    cases hr : metadata[n]? with
    | none =>
      simp only [ih]
      constructor
      · rintro ⟨i, r, h1, h2, h3⟩
        exact ⟨i, r, Nat.lt_succ_of_lt h1, h2, h3⟩
      · rintro ⟨i, r, h1, h2, h3⟩
        have hi : i ≠ n := by
          rintro rfl
          rw [hr] at h2
          cases h2
        exact ⟨i, r, by omega, h2, h3⟩
    | some r0 =>
      simp only [mem_mapKeys_mapSet, ih]
      constructor
      · rintro (h | ⟨i, r, h1, h2, h3⟩)
        · exact ⟨n, r0, Nat.lt_succ_self _, hr, h.symm⟩
        · exact ⟨i, r, Nat.lt_succ_of_lt h1, h2, h3⟩
      · rintro ⟨i, r, h1, h2, h3⟩
        by_cases hi : i = n
        · subst hi
          rw [hr] at h2
          cases h2
          exact Or.inl h3.symm
        · exact Or.inr ⟨i, r, by omega, h2, h3⟩

/-! ## C6 -/

/-- C6: after the index-building loop of `init`, started from the empty map of
a freshly loaded page, the id-index map has no repeated key, its keys are
exactly the ids that occur in `metadata`, the entry of an id is the greatest
position of `metadata` carrying that id (so with unique ids every position `i`
is the entry of `metadata[i].id`), and every entry is a valid position of
`metadata`, and of `samples` when `samples` is at least as long. -/
theorem init_index_map_spec (otu bubble : List Node) (rows : List Row) (label : String)
    (loaded : Dataset) :
    (mapKeys (init (pageLoad otu bubble rows label) loaded).state.sample_data_map).Nodup ∧
    (∀ id, id ∈ mapKeys (init (pageLoad otu bubble rows label) loaded).state.sample_data_map ↔
      ∃ r ∈ loaded.metadata, r.id = id) ∧
    (∀ id i,
      mapGet (init (pageLoad otu bubble rows label) loaded).state.sample_data_map id = some i ↔
        (∃ r, loaded.metadata[i]? = some r ∧ r.id = id) ∧
        ∀ j r, i < j → loaded.metadata[j]? = some r → r.id ≠ id) ∧
    ((loaded.metadata.map (fun r => r.id)).Nodup →
      ∀ i r, loaded.metadata[i]? = some r →
        mapGet (init (pageLoad otu bubble rows label) loaded).state.sample_data_map r.id =
          some i) ∧
    (∀ id i,
      mapGet (init (pageLoad otu bubble rows label) loaded).state.sample_data_map id = some i →
        i < loaded.metadata.length ∧
        (loaded.metadata.length ≤ loaded.samples.length → i < loaded.samples.length)) := by
  have hm : (init (pageLoad otu bubble rows label) loaded).state.sample_data_map =
      init_index loaded.metadata loaded.metadata.length [] := by
    rw [init_map]
    rfl
  rw [hm]
  obtain ⟨hnd, hget⟩ := init_index_inv loaded.metadata loaded.metadata.length (Nat.le_refl _)
  have hchar : ∀ id i,
      mapGet (init_index loaded.metadata loaded.metadata.length []) id = some i ↔
        (∃ r, loaded.metadata[i]? = some r ∧ r.id = id) ∧
        ∀ j r, i < j → loaded.metadata[j]? = some r → r.id ≠ id := by
    intro id i
    rw [hget]
    constructor
    · rintro ⟨_, h2, h3⟩
      refine ⟨h2, ?_⟩
      intro j r h4 h5
      obtain ⟨hj, _⟩ := List.getElem?_eq_some.mp h5
      exact h3 j r h4 hj h5
    · rintro ⟨h2, h3⟩
      obtain ⟨r, hr, hrid⟩ := h2
      obtain ⟨hi, _⟩ := List.getElem?_eq_some.mp hr
      exact ⟨hi, ⟨r, hr, hrid⟩, fun j r h4 _ h5 => h3 j r h4 h5⟩
  refine ⟨hnd, ?_, hchar, ?_, ?_⟩
  · intro id
    rw [mem_mapKeys_init_index]
    constructor
    · rintro ⟨i, r, _, h2, h3⟩
      exact ⟨r, List.mem_iff_getElem?.mpr ⟨i, h2⟩, h3⟩
    · rintro ⟨r, h1, h2⟩
      obtain ⟨i, hi⟩ := List.mem_iff_getElem?.mp h1
      obtain ⟨hlt, _⟩ := List.getElem?_eq_some.mp hi
      exact ⟨i, r, hlt, hi, h2⟩
  · intro hids i r hr
    rw [hchar]
    refine ⟨⟨r, hr, rfl⟩, ?_⟩
    intro j r2 hij hr2 heq
    have hne := (List.nodup_iff_getElem?_ne_getElem?.mp hids) i j hij
      (by
        obtain ⟨hj, _⟩ := List.getElem?_eq_some.mp hr2
        simpa using hj)
    apply hne
    simp [List.getElem?_map, hr, hr2, heq]
  · intro id i h
    obtain ⟨⟨r, hr, _⟩, _⟩ := (hchar id i).mp h
    obtain ⟨hi, _⟩ := List.getElem?_eq_some.mp hr
    exact ⟨hi, fun hle => Nat.lt_of_lt_of_le hi hle⟩

/-! ## Loops over `d3.range` -/

theorem filterMap_range_all {β : Type} (f : Nat → Option β) (n : Nat)
    (h : ∀ i, i < n → (f i).isSome = true) :
    ((List.range n).filterMap f).length = n ∧
      ∀ i, i < n → ((List.range n).filterMap f)[i]? = f i := by
  induction n with
  | zero => simp
  | succ n ih =>
    obtain ⟨hlen, hget⟩ := ih (fun i hi => h i (Nat.lt_succ_of_lt hi))
    obtain ⟨b, hb⟩ := Option.isSome_iff_exists.mp (h n (Nat.lt_succ_self _))
    have hlast : List.filterMap f [n] = [b] := by simp [List.filterMap_cons, hb]
    rw [List.range_succ, List.filterMap_append, hlast]
    refine ⟨by simp [hlen], ?_⟩
    intro i hi
    by_cases hin : i < n
    · rw [List.getElem?_append_left (by rw [hlen]; exact hin)]
      exact hget i hin
    · have hi2 : i = n := by omega
      subst hi2
      rw [List.getElem?_append_right (by rw [hlen])]
      simp [hlen, hb]

theorem mem_InternSet_foldl (values s : List String) (c : String) :
    c ∈ values.foldl (fun s v => if v ∈ s then s else s ++ [v]) s ↔ c ∈ s ∨ c ∈ values := by
  induction values generalizing s with
  | nil => simp
  | cons v rest ih =>
    rw [List.foldl_cons, ih]
    by_cases hv : v ∈ s
    · simp only [hv, if_true, List.mem_cons]
      constructor
      · rintro (h | h)
        · exact Or.inl h
        · exact Or.inr (Or.inr h)
      · rintro (h | h | h)
        · exact Or.inl h
        · exact Or.inl (h ▸ hv)
        · exact Or.inr h
    · simp only [hv, if_false, List.mem_append, List.mem_singleton, List.mem_cons]
      tauto

theorem mem_InternSet (values : List String) (c : String) :
    c ∈ InternSet values ↔ c ∈ values := by
  simp [InternSet, mem_InternSet_foldl]

/-- With the category domain left to its default, `BarChart` binds one bar to
every record, in order. -/
theorem BarChart_bars {δ : Type} (data : List δ) (x : δ → ℚ) (y : δ → String)
    (xDomain : Option (ℚ × Option ℚ)) (sample_id : Int) :
    (BarChart data x y xDomain none sample_id).bars.length = data.length ∧
    ∀ i, (BarChart data x y xDomain none sample_id).bars[i]? =
      data[i]?.map (fun d => ({ datum := i, category := y d, value := x d } : Bar)) := by
  have hI : (List.range (d3map data x).length).filter (fun i =>
      match (d3map data y)[i]? with
      | some c => decide (c ∈ InternSet (d3map data y))
      | none => false) = List.range data.length := by
    have hl : (d3map data x).length = data.length := by simp [d3map]
    rw [hl]
    apply List.filter_eq_self.mpr
    intro i hi
    have hi2 : i < data.length := List.mem_range.mp hi
    have hY : (d3map data y)[i]? = some (y data[i]) := by
      simp [d3map, List.getElem?_map, List.getElem?_eq_getElem hi2]
    simp only [hY, mem_InternSet, decide_eq_true_eq]
    exact List.mem_iff_getElem?.mpr ⟨i, hY⟩
  have hb : (BarChart data x y xDomain none sample_id).bars =
      (List.range data.length).filterMap (fun i =>
        match (d3map data x)[i]?, (d3map data y)[i]? with
        | some v, some c => some { datum := i, category := c, value := v }
        | _, _ => none) := by
    simp only [BarChart]
    rw [hI]
  have hf : ∀ i (hi : i < data.length), (match (d3map data x)[i]?, (d3map data y)[i]? with
        | some v, some c => some ({ datum := i, category := c, value := v } : Bar)
        | _, _ => none) = some { datum := i, category := y data[i], value := x data[i] } := by
    intro i hi
    simp [d3map, List.getElem?_map, List.getElem?_eq_getElem hi]
  obtain ⟨hlen, hget⟩ := filterMap_range_all (fun i =>
        match (d3map data x)[i]?, (d3map data y)[i]? with
        | some v, some c => some ({ datum := i, category := c, value := v } : Bar)
        | _, _ => none) data.length (fun i hi => by dsimp only; rw [hf i hi]; rfl)
  rw [hb]
  refine ⟨hlen, ?_⟩
  intro i
  by_cases hi : i < data.length
  · have h1 := hget i hi
    rw [h1, hf i hi, List.getElem?_eq_getElem hi]
    rfl
  · rw [List.getElem?_eq_none (by omega), List.getElem?_eq_none (by omega)]
    rfl

/-- The loop that builds `xy_map` pairs every value with the identifier at the
same position. -/
theorem xy_map_getElem? (x : List ℚ) (y : List Int) :
    (xy_map x y).length = x.length ∧
    ∀ i : Nat, (xy_map x y)[i]? =
      x[i]?.map (fun v => ({ sample_values := v, otu_ids := y[i]? } : OTURecord)) := by
  have hf : ∀ i (hi : i < x.length), (match x[i]? with
        | some v => some ({ sample_values := v, otu_ids := y[i]? } : OTURecord)
        | none => none) =
      some ({ sample_values := x[i], otu_ids := y[i]? } : OTURecord) := by
    intro i hi
    simp [List.getElem?_eq_getElem hi]
  obtain ⟨hlen, hget⟩ := filterMap_range_all (fun i =>
        match x[i]? with
        | some v => some ({ sample_values := v, otu_ids := y[i]? } : OTURecord)
        | none => none) x.length (fun i hi => by dsimp only; rw [hf i hi]; rfl)
  refine ⟨hlen, ?_⟩
  intro i
  by_cases hi : i < x.length
  · have h1 := hget i hi
    rw [hf i hi] at h1
    rw [List.getElem?_eq_getElem hi]
    exact h1
  · have hlen2 : (xy_map x y).length = x.length := hlen
    have h1 : (xy_map x y)[i]? = none := List.getElem?_eq_none (by rw [hlen2]; omega)
    have h2 : x[i]? = none := List.getElem?_eq_none (by omega)
    rw [h1, h2]
    rfl

theorem updateData_otu_chart (st : State) (sample_id : Int) (sample : SampleRecord)
    (h : elemAt st.sample_data.samples (mapGet st.sample_data_map sample_id) = some sample) :
    (updateData st sample_id).state.otu_chart = [Node.barChart (barOf sample sample_id)] := by
  cases h2 : elemAt st.sample_data.metadata (mapGet st.sample_data_map sample_id) with
  | none => simp [updateData_throw_second st sample_id sample h h2]
  | some metadata => simp [updateData_complete st sample_id sample metadata h h2]

/-! ## C1 -/

/-- C1: when the index of the subject id resolves to a sample record with `n`
paired `sample_values` and `otu_ids`, the bar chart region holds one scene
after `updateData`, and its bars are, in order, the first `min n 10` OTU
records in input order: bar `i` has value `sample_values[i]` and category
`"OTU" + otu_ids[i]`. Nothing is sorted and nothing is dropped, also when
categories repeat; so there are at most 10 bars, and exactly `n` when
`n < 10`. -/
theorem updateData_bars (st : State) (sample_id : Int) (idx : Nat) (sample : SampleRecord)
    (n : Nat) (hidx : mapGet st.sample_data_map sample_id = some idx)
    (hs : st.sample_data.samples[idx]? = some sample)
    (hx : sample.sample_values.length = n) (hy : sample.otu_ids.length = n) :
    ∃ svg, (updateData st sample_id).state.otu_chart = [Node.barChart svg] ∧
      svg.bars.length = min n 10 ∧
      (∀ i, i < min n 10 → ∃ v id, sample.sample_values[i]? = some v ∧
        sample.otu_ids[i]? = some id ∧
        svg.bars[i]? = some { datum := i, category := "OTU" ++ toString id, value := v }) ∧
      svg.bars.length ≤ 10 ∧ (n < 10 → svg.bars.length = n) := by
  have h : elemAt st.sample_data.samples (mapGet st.sample_data_map sample_id) =
      some sample := by
    rw [hidx]
    exact hs
  refine ⟨barOf sample sample_id, updateData_otu_chart st sample_id sample h, ?_⟩
  obtain ⟨hblen, hbget⟩ := BarChart_bars
    ((xy_map sample.sample_values sample.otu_ids).take 10)
    (fun d => d.sample_values) otuLabel none sample_id
  obtain ⟨hxlen, hxget⟩ := xy_map_getElem? sample.sample_values sample.otu_ids
  have hlen : (barOf sample sample_id).bars.length = min n 10 := by
    unfold barOf
    rw [hblen, List.length_take, hxlen, hx, Nat.min_comm]
  refine ⟨hlen, ?_, ?_, ?_⟩
  · intro i hi
    have hin : i < n := lt_of_lt_of_le hi (Nat.min_le_left _ _)
    have hi10 : i < 10 := lt_of_lt_of_le hi (Nat.min_le_right _ _)
    have hv : sample.sample_values[i]? = some sample.sample_values[i] :=
      List.getElem?_eq_getElem (by omega)
    have hid : sample.otu_ids[i]? = some sample.otu_ids[i] :=
      List.getElem?_eq_getElem (by omega)
    refine ⟨sample.sample_values[i], sample.otu_ids[i], hv, hid, ?_⟩
    unfold barOf
    rw [hbget i, List.getElem?_take, if_pos hi10, hxget i, hv, hid]
    rfl
  · rw [hlen]
    exact Nat.min_le_right _ _
  · intro hn
    rw [hlen]
    exact Nat.min_eq_left (Nat.le_of_lt hn)

theorem updateData_bars_witness :
    mapGet crowdedState.sample_data_map 940 = some 0 ∧
    crowdedState.sample_data.samples[0]? =
      some { id := 940
             otu_ids := [7, 7, 3, 4, 5, 6, 7, 8, 9, 10, 11, 12]
             sample_values := [1, 2, 3, 4, 5, 6, 7, 8, 9, 10, 11, 12] } ∧
    ∃ svg, (updateData crowdedState 940).state.otu_chart = [Node.barChart svg] ∧
      svg.bars.length = min 12 10 ∧
      (∀ i, i < min 12 10 → ∃ v id,
        ([1, 2, 3, 4, 5, 6, 7, 8, 9, 10, 11, 12] : List ℚ)[i]? = some v ∧
        ([7, 7, 3, 4, 5, 6, 7, 8, 9, 10, 11, 12] : List Int)[i]? = some id ∧
        svg.bars[i]? = some { datum := i, category := "OTU" ++ toString id, value := v }) ∧
      svg.bars.length ≤ 10 ∧ (12 < 10 → svg.bars.length = 12) :=
  ⟨rfl, rfl, updateData_bars crowdedState 940 0
    { id := 940
      otu_ids := [7, 7, 3, 4, 5, 6, 7, 8, 9, 10, 11, 12]
      sample_values := [1, 2, 3, 4, 5, 6, 7, 8, 9, 10, 11, 12] } 12 rfl rfl rfl rfl⟩

/-! ## `d3.max` and `indexOf` -/

theorem d3max_foldl_some {α : Type} [LinearOrder α] (values : List (Option α)) (acc : Option α)
    (M : α)
    (h : values.foldl (fun max value =>
      match value, max with
      | some v, some m => if m < v then some v else some m
      | some v, none => some v
      | none, max => max) acc = some M) :
    (acc = some M ∨ some M ∈ values) ∧ (∀ a, acc = some a → a ≤ M) ∧
      ∀ v, some v ∈ values → v ≤ M := by
  induction values generalizing acc with
  | nil =>
    simp only [List.foldl_nil] at h
    subst h
    simp
  | cons value rest ih =>
    rw [List.foldl_cons] at h
    obtain ⟨h1, h2, h3⟩ := ih _ h
    cases value with
    | none =>
      simp only at h1 h2
      refine ⟨?_, h2, ?_⟩
      · rcases h1 with h1 | h1
        · exact Or.inl h1
        · exact Or.inr (List.mem_cons_of_mem _ h1)
      · intro v hv
        rcases List.mem_cons.mp hv with hv | hv
        · cases hv
        · exact h3 v hv
    | some v0 =>
      cases acc with
      | none =>
        simp only at h1 h2
        refine ⟨?_, by simp, ?_⟩
        · rcases h1 with h1 | h1
          · exact Or.inr (by rw [h1]; exact List.mem_cons_self _ _)
          · exact Or.inr (List.mem_cons_of_mem _ h1)
        · intro v hv
          rcases List.mem_cons.mp hv with hv | hv
          · cases hv
            exact h2 _ rfl
          · exact h3 v hv
      | some a0 =>
        simp only at h1 h2
        by_cases hlt : a0 < v0
        · simp only [hlt, if_true] at h1 h2
          refine ⟨?_, ?_, ?_⟩
          · rcases h1 with h1 | h1
            · exact Or.inr (by rw [h1]; exact List.mem_cons_self _ _)
            · exact Or.inr (List.mem_cons_of_mem _ h1)
          · intro a ha
            cases ha
            exact le_trans (le_of_lt hlt) (h2 v0 rfl)
          · intro v hv
            rcases List.mem_cons.mp hv with hv | hv
            · cases hv
              exact h2 _ rfl
            · exact h3 v hv
        · simp only [hlt, if_false] at h1 h2
          refine ⟨?_, ?_, ?_⟩
          · rcases h1 with h1 | h1
            · exact Or.inl h1
            · exact Or.inr (List.mem_cons_of_mem _ h1)
          · intro a ha
            exact h2 a ha
          · intro v hv
            rcases List.mem_cons.mp hv with hv | hv
            · cases hv
              exact le_trans (not_lt.mp hlt) (h2 a0 rfl)
            · exact h3 v hv

theorem d3max_foldl_isSome {α : Type} [LinearOrder α] (values : List (Option α))
    (acc : Option α) (h : acc.isSome = true ∨ ∃ v, some v ∈ values) :
    (values.foldl (fun max value =>
      match value, max with
      | some v, some m => if m < v then some v else some m
      | some v, none => some v
      | none, max => max) acc).isSome = true := by
  induction values generalizing acc with
  | nil =>
    rcases h with h | ⟨v, hv⟩
    · simpa using h
    · cases hv
  | cons value rest ih =>
    rw [List.foldl_cons]
    apply ih
    cases value with
    | none =>
      rcases h with h | ⟨v, hv⟩
      · exact Or.inl h
      · rcases List.mem_cons.mp hv with hv | hv
        · cases hv
        · exact Or.inr ⟨v, hv⟩
    | some v0 =>
      left
      cases acc with
      | none => rfl
      | some a0 =>
        by_cases hlt : a0 < v0 <;> simp [hlt]

/-- What `d3.max` returns when some value is defined: a defined value of the
array that no defined value exceeds. -/
theorem d3max_spec {α : Type} [LinearOrder α] (values : List (Option α))
    (h : ∃ v, some v ∈ values) :
    ∃ M, d3max values = some M ∧ some M ∈ values ∧ ∀ v, some v ∈ values → v ≤ M := by
  have h1 := d3max_foldl_isSome values none (Or.inr h)
  obtain ⟨M, hM⟩ := Option.isSome_iff_exists.mp h1
  obtain ⟨h2, _, h4⟩ := d3max_foldl_some values none M hM
  refine ⟨M, hM, ?_, h4⟩
  rcases h2 with h2 | h2
  · cases h2
  · exact h2

theorem indexOfFrom_spec {α : Type} [DecidableEq α] (A : List α) (x : α) (i : Nat)
    (h : x ∈ A) :
    ∃ k : Nat, indexOfFrom A x i = ((i + k : Nat) : Int) ∧ A[k]? = some x ∧
      ∀ j, j < k → A[j]? ≠ some x := by
  induction A generalizing i with
  | nil => cases h
  | cons a rest ih =>
    by_cases ha : a = x
    · refine ⟨0, by simp [indexOfFrom, ha], by simp [ha], ?_⟩
      intro j hj
      omega
    · have hx : x ∈ rest := by
        rcases List.mem_cons.mp h with h | h
        · exact absurd h.symm ha
        · exact h
      obtain ⟨k, h1, h2, h3⟩ := ih (i + 1) hx
      refine ⟨k + 1, ?_, by simpa using h2, ?_⟩
      · simp only [indexOfFrom, ha, if_false, h1]
        congr 1
        omega
      · intro j hj
        cases j with
        | zero => simpa using ha
        | succ j =>
          simpa using h3 j (by omega)

/-- What `indexOf` returns for an element of the array: its first position. -/
theorem indexOf_spec {α : Type} [DecidableEq α] (A : List α) (x : α) (h : x ∈ A) :
    ∃ k : Nat, indexOf A x = (k : Int) ∧ A[k]? = some x ∧ ∀ j, j < k → A[j]? ≠ some x := by
  obtain ⟨k, h1, h2, h3⟩ := indexOfFrom_spec A x 0 h
  exact ⟨k, by simpa [indexOf] using h1, h2, h3⟩

/-! ## C2 -/

/-- C2: the scene of `BubbleChart` holds exactly one circle per input record,
in input order, and the radius of the circle of a record is the
`sample_values` of that record divided by 2; values `[5, 50]` give radii
`[2.5, 25]` and `[15]` gives `[7.5]`. -/
theorem BubbleChart_circles (data : List OTURecord) :
    (BubbleChart data).circles.length = data.length ∧
    (∀ i : Nat, ((BubbleChart data).circles[i]?).map (fun c => c.r) =
      data[i]?.map (fun d => d.sample_values / 2)) ∧
    (∀ a b : Option Int,
      (BubbleChart [{ sample_values := 5, otu_ids := a },
        { sample_values := 50, otu_ids := b }]).circles.map (fun c => c.r) = [2.5, 25]) ∧
    (∀ a : Option Int,
      (BubbleChart [{ sample_values := 15, otu_ids := a }]).circles.map (fun c => c.r) =
        [7.5]) := by
  refine ⟨by simp [BubbleChart], ?_, ?_, ?_⟩
  · intro i
    simp only [BubbleChart, List.getElem?_map, Option.map_map]
    rfl
  · intro a b
    simp only [BubbleChart, List.map_cons, List.map_nil]
    norm_num
  · intro a
    simp only [BubbleChart, List.map_cons, List.map_nil]
    norm_num

/-! ## C3 -/

theorem BubbleChart_yMax (data : List OTURecord) (h : data ≠ []) :
    ∃ M, d3max (d3map data (fun d => some d.sample_values)) = some M ∧
      (∃ d ∈ data, d.sample_values = M) ∧ ∀ d ∈ data, d.sample_values ≤ M := by
  obtain ⟨d0, hd0⟩ := List.exists_mem_of_ne_nil data h
  obtain ⟨M, h1, h2, h3⟩ := d3max_spec (d3map data (fun d => some d.sample_values))
    ⟨d0.sample_values, by simp only [d3map]; exact List.mem_map.mpr ⟨d0, hd0, rfl⟩⟩
  refine ⟨M, h1, ?_, ?_⟩
  · obtain ⟨d, hd, hdM⟩ := List.mem_map.mp h2
    exact ⟨d, hd, Option.some.inj hdM⟩
  · intro d hd
    exact h3 _ (List.mem_map.mpr ⟨d, hd, rfl⟩)

/-- C3: for a non-empty list of OTU records the y-axis domain `BubbleChart`
builds is `[0, 2.5 * M]`, where `M` is the maximum of the `sample_values`: a
value of some record that no record exceeds. -/
theorem BubbleChart_yDomain (data : List OTURecord) (h : data ≠ []) :
    ∃ M, (∃ d ∈ data, d.sample_values = M) ∧ (∀ d ∈ data, d.sample_values ≤ M) ∧
      (BubbleChart data).yDomain = (0, some (2.5 * M)) := by
  obtain ⟨M, h1, h2, h3⟩ := BubbleChart_yMax data h
  refine ⟨M, h2, h3, ?_⟩
  simp only [BubbleChart, h1, Option.map_some']

theorem BubbleChart_yDomain_witness :
    ([{ sample_values := 5, otu_ids := some 10 },
      { sample_values := 50, otu_ids := some 20 }] : List OTURecord) ≠ [] ∧
    (∃ M : ℚ, (∃ d ∈ ([{ sample_values := 5, otu_ids := some 10 },
        { sample_values := 50, otu_ids := some 20 }] : List OTURecord), d.sample_values = M) ∧
      (∀ d ∈ ([{ sample_values := 5, otu_ids := some 10 },
        { sample_values := 50, otu_ids := some 20 }] : List OTURecord), d.sample_values ≤ M) ∧
      (BubbleChart [{ sample_values := 5, otu_ids := some 10 },
        { sample_values := 50, otu_ids := some 20 }]).yDomain = (0, some (2.5 * M))) ∧
    (BubbleChart [{ sample_values := 5, otu_ids := some 10 },
        { sample_values := 50, otu_ids := some 20 }]).yDomain = (0, some 125) :=
  ⟨by simp, BubbleChart_yDomain _ (by simp), by norm_num [BubbleChart, d3map, d3max]⟩

/-! ## C5 -/

/-- C5: for a non-empty list of OTU records (every record carrying its
identifier) the x-axis domain `BubbleChart` builds is `[0, M + k / 2 + 100]`,
where `M` is the maximum `otu_ids` over the records and `k` is the 0-based
position of the first record whose `otu_ids` is `M`. -/
theorem BubbleChart_xDomain (data : List OTURecord) (h : data ≠ [])
    (hid : ∀ d ∈ data, d.otu_ids ≠ none) :
    ∃ (M : Int) (k : Nat),
      (∃ d, data[k]? = some d ∧ d.otu_ids = some M) ∧
      (∀ j d, j < k → data[j]? = some d → d.otu_ids ≠ some M) ∧
      (∀ d ∈ data, ∀ n, d.otu_ids = some n → n ≤ M) ∧
      (BubbleChart data).xDomain = (0, some ((M : ℚ) + (k : ℚ) / 2 + 100)) := by
  obtain ⟨d0, hd0⟩ := List.exists_mem_of_ne_nil data h
  obtain ⟨n0, hn0⟩ := Option.ne_none_iff_exists'.mp (hid d0 hd0)
  obtain ⟨M, h1, h2, h3⟩ := d3max_spec (d3map data (fun d => d.otu_ids))
    ⟨n0, by simp only [d3map]; exact List.mem_map.mpr ⟨d0, hd0, hn0⟩⟩
  obtain ⟨k, hk1, hk2, hk3⟩ := indexOf_spec (d3map data (fun d => d.otu_ids)) (some M) h2
  refine ⟨M, k, ?_, ?_, ?_, ?_⟩
  · simp only [d3map, List.getElem?_map] at hk2
    cases hd : data[k]? with
    | none => simp [hd] at hk2
    | some d =>
      rw [hd] at hk2
      exact ⟨d, rfl, Option.some.inj hk2⟩
  · intro j d hj hd hM
    apply hk3 j hj
    simp only [d3map, List.getElem?_map, hd, Option.map_some', hM]
  · intro d hd n hn
    apply h3
    simp only [d3map]
    exact List.mem_map.mpr ⟨d, hd, hn⟩
  · simp only [BubbleChart, h1, hk1, Option.map_some', Int.cast_natCast]

theorem BubbleChart_xDomain_witness :
    ([{ sample_values := 5, otu_ids := some 10 },
      { sample_values := 50, otu_ids := some 20 }] : List OTURecord) ≠ [] ∧
    (∀ d ∈ ([{ sample_values := 5, otu_ids := some 10 },
      { sample_values := 50, otu_ids := some 20 }] : List OTURecord), d.otu_ids ≠ none) ∧
    (∃ (M : Int) (k : Nat),
      (∃ d, ([{ sample_values := 5, otu_ids := some 10 },
        { sample_values := 50, otu_ids := some 20 }] : List OTURecord)[k]? = some d ∧
        d.otu_ids = some M) ∧
      (∀ j d, j < k → ([{ sample_values := 5, otu_ids := some 10 },
        { sample_values := 50, otu_ids := some 20 }] : List OTURecord)[j]? = some d →
        d.otu_ids ≠ some M) ∧
      (∀ d ∈ ([{ sample_values := 5, otu_ids := some 10 },
        { sample_values := 50, otu_ids := some 20 }] : List OTURecord),
        ∀ n, d.otu_ids = some n → n ≤ M) ∧
      (BubbleChart [{ sample_values := 5, otu_ids := some 10 },
        { sample_values := 50, otu_ids := some 20 }]).xDomain =
        (0, some ((M : ℚ) + (k : ℚ) / 2 + 100))) ∧
    (BubbleChart [{ sample_values := 5, otu_ids := some 10 },
        { sample_values := 50, otu_ids := some 20 }]).xDomain = (0, some (20 + 1 / 2 + 100)) :=
  ⟨by simp, by simp, BubbleChart_xDomain _ (by simp) (by simp),
    by norm_num [BubbleChart, d3map, d3max, indexOf, indexOfFrom]⟩

/-! ## C4 -/

theorem scaleLinear_yMax (M : ℚ) (hM : 0 < M) :
    scaleLinear (0, some (2.5 * M)) (350, 0) (some M) = some 210 := by
  have h1 : ¬ (2.5 * M < 0) := by
    have : (0 : ℚ) < 2.5 * M := by positivity
    exact not_lt.mpr (le_of_lt this)
  have h2 : ¬ (2.5 * M - 0 = 0) := by
    have : (0 : ℚ) < 2.5 * M := by positivity
    simpa using ne_of_gt this
  simp only [scaleLinear, h1, h2, if_false]
  congr 1
  have hM0 : M ≠ 0 := ne_of_gt hM
  field_simp
  ring

/-- C4, as the code has it: for a non-empty list of OTU records with positive
values, the circle of a record of maximum value has its centre at `y = 210`
and radius half that value, so its top edge is inside the canvas (centre y
minus radius at least 0) exactly when the maximum value is at most 420. -/
theorem BubbleChart_largest_bubble (data : List OTURecord) (i : Nat) (d : OTURecord)
    (hd : data[i]? = some d) (hpos : ∀ e ∈ data, 0 < e.sample_values)
    (hmax : ∀ e ∈ data, e.sample_values ≤ d.sample_values) :
    ∃ c, (BubbleChart data).circles[i]? = some c ∧ c.cy = some 210 ∧
      c.r = d.sample_values / 2 ∧ (0 ≤ 210 - c.r ↔ d.sample_values ≤ 420) := by
  have hmem : d ∈ data := List.mem_iff_getElem?.mpr ⟨i, hd⟩
  have hne : data ≠ [] := List.ne_nil_of_mem hmem
  obtain ⟨M, h1, ⟨e, he, heM⟩, h3⟩ := BubbleChart_yMax data hne
  have hMd : M = d.sample_values :=
    le_antisymm (heM ▸ hmax e he) (h3 d hmem)
  have hy := scaleLinear_yMax d.sample_values (hpos d hmem)
  have hc : (BubbleChart data).circles[i]? = some
      { cx := scaleLinear (BubbleChart data).xDomain (0, 1200)
          (d.otu_ids.map (fun (n : Int) => (n : ℚ)))
        cy := scaleLinear (BubbleChart data).yDomain (350, 0) (some d.sample_values)
        r := d.sample_values / 2 } := by
    simp only [BubbleChart, List.getElem?_map, hd, Option.map_some']
  refine ⟨_, hc, ?_, rfl, ?_⟩
  · simp only [BubbleChart, h1, hMd, Option.map_some']
    exact hy
  · constructor
    · intro h
      linarith
    · intro h
      linarith

theorem BubbleChart_largest_bubble_witness :
    ([{ sample_values := 5, otu_ids := some 10 },
      { sample_values := 50, otu_ids := some 20 }] : List OTURecord)[1]? =
      some { sample_values := 50, otu_ids := some 20 } ∧
    (∀ e ∈ ([{ sample_values := 5, otu_ids := some 10 },
      { sample_values := 50, otu_ids := some 20 }] : List OTURecord), 0 < e.sample_values) ∧
    (∀ e ∈ ([{ sample_values := 5, otu_ids := some 10 },
      { sample_values := 50, otu_ids := some 20 }] : List OTURecord),
      e.sample_values ≤ (50 : ℚ)) ∧
    ∃ c, (BubbleChart [{ sample_values := 5, otu_ids := some 10 },
        { sample_values := 50, otu_ids := some 20 }]).circles[1]? = some c ∧
      c.cy = some 210 ∧ c.r = (50 : ℚ) / 2 ∧ (0 ≤ 210 - c.r ↔ (50 : ℚ) ≤ 420) :=
  ⟨rfl, by simp, by norm_num,
    BubbleChart_largest_bubble _ 1 { sample_values := 50, otu_ids := some 20 } rfl
      (by simp) (by norm_num)⟩

/-- C4 fails as stated: a single record of value 500 is drawn as a circle
centred at `y = 210` with radius 250, whose top edge lies 40 above the
canvas. -/
theorem largest_bubble_clips :
    (0 : ℚ) < 500 ∧
    (BubbleChart [{ sample_values := 500, otu_ids := some 1 }]).yDomain =
      (0, some (2.5 * 500)) ∧
    ∃ c cy, (BubbleChart [{ sample_values := 500, otu_ids := some 1 }]).circles = [c] ∧
      c.cy = some cy ∧ c.r = 500 / 2 ∧ cy - c.r = -40 ∧ ¬ (0 ≤ cy - c.r) := by
  refine ⟨by norm_num, by norm_num [BubbleChart, d3map, d3max], ?_⟩
  refine ⟨_, 210, rfl, ?_, rfl, by norm_num, by norm_num⟩
  norm_num [d3map, d3max, scaleLinear]

/-! ## C7 -/

/-- C7: `updateData` is idempotent. Calling it a second time with the same id
leaves the state the first call left (selector label, metadata rows, bars and
circles), whatever the regions held at the start, and ends the same way; and
a call leaves the dataset and the id-index map as they were. -/
theorem updateData_idempotent (st : State) (sample_id : Int) :
    updateData (updateData st sample_id).state sample_id = updateData st sample_id ∧
    (updateData st sample_id).state.sample_data = st.sample_data ∧
    (updateData st sample_id).state.sample_data_map = st.sample_data_map := by
  refine ⟨?_, (updateData_globals st sample_id).1, (updateData_globals st sample_id).2.1⟩
  cases h : elemAt st.sample_data.samples (mapGet st.sample_data_map sample_id) with
  | none =>
    rw [updateData_throw_first st sample_id h]
    exact updateData_throw_first st sample_id h
  | some sample =>
    cases h2 : elemAt st.sample_data.metadata (mapGet st.sample_data_map sample_id) with
    | none =>
      rw [updateData_throw_second st sample_id sample h h2]
      exact updateData_throw_second _ sample_id sample h h2
    | some metadata =>
      rw [updateData_complete st sample_id sample metadata h h2]
      exact updateData_complete _ sample_id sample metadata h h2

/-! ## C8 -/

theorem indexLE_total (a b : String × Scalar) : indexLE a b ∨ indexLE b a :=
  Nat.le_total _ _

theorem indexLE_trans (a b c : String × Scalar) (h1 : indexLE a b) (h2 : indexLE b c) :
    indexLE a c :=
  Nat.le_trans h1 h2

theorem Object_entries_perm (r : MetadataRecord) :
    (Object_entries r).Perm (ownProperties r) := by
  unfold Object_entries
  exact ((List.perm_insertionSort indexLE _).append_right _).trans
    (List.filter_append_perm _ _)

theorem innerHTML_append_foldl (entries : List (String × Scalar)) (rows : List Row)
    (h : ∀ kv ∈ entries, plainText kv.1 = true ∧ plainText kv.2.toText = true) :
    entries.foldl (fun rows kv => innerHTML_append rows kv.1 kv.2.toText) rows =
      rows ++ entries.map (fun kv => Row.cells kv.1 kv.2.toText) := by
  induction entries generalizing rows with
  | nil => simp
  | cons e rest ih =>
    have he := h e (List.mem_cons_self _ _)
    rw [List.foldl_cons, ih _ (fun kv hkv => h kv (List.mem_cons_of_mem _ hkv))]
    simp [innerHTML_append, he.1, he.2]

theorem toText_eq (v : Scalar) :
    v.toText = (match v with
      | Scalar.int n => toString n
      | Scalar.str s => s
      | Scalar.null => "null") := by
  cases v <;> rfl

/-- C8, as the code has it: when `updateData` completes and the keys and
values of the metadata record of the selected subject are plain text, the
metadata table holds exactly one row per field of that record, each row
showing the key of its field and the text of its value (the decimal numeral
of a number, a string itself, `null` for null), whatever rows the table held
before. The rows stand in the order of `Object.entries`: first the fields
whose key is an array index, in ascending order of the index, then the other
fields in the order the record has them; so a record with no such key gives
its rows in its own field order. -/
theorem updateData_metadata_rows (st : State) (sample_id : Int) (idx : Nat)
    (metadata : MetadataRecord)
    (h : (updateData st sample_id).thrown = none)
    (hidx : mapGet st.sample_data_map sample_id = some idx)
    (hmd : st.sample_data.metadata[idx]? = some metadata)
    (hplain : ∀ kv ∈ metadata.before ++ ("id", Scalar.int metadata.id) :: metadata.fields,
      plainText kv.1 = true ∧
      plainText (match kv.2 with
        | Scalar.int n => toString n
        | Scalar.str s => s
        | Scalar.null => "null") = true) :
    (updateData st sample_id).state.sample_metadata.length =
      metadata.before.length + 1 + metadata.fields.length ∧
    (∃ ix : List (String × Scalar),
      ix.Perm ((metadata.before ++ ("id", Scalar.int metadata.id) :: metadata.fields).filter
        (fun kv => (arrayIndex kv.1).isSome)) ∧
      ix.Pairwise (fun a b => (arrayIndex a.1).getD 0 ≤ (arrayIndex b.1).getD 0) ∧
      (updateData st sample_id).state.sample_metadata =
        (ix ++ (metadata.before ++ ("id", Scalar.int metadata.id) :: metadata.fields).filter
          (fun kv => !(arrayIndex kv.1).isSome)).map
          (fun kv => Row.cells kv.1 (match kv.2 with
            | Scalar.int n => toString n
            | Scalar.str s => s
            | Scalar.null => "null"))) ∧
    ((∀ kv ∈ metadata.before ++ ("id", Scalar.int metadata.id) :: metadata.fields,
        arrayIndex kv.1 = none) →
      (updateData st sample_id).state.sample_metadata =
        (metadata.before ++ ("id", Scalar.int metadata.id) :: metadata.fields).map
          (fun kv => Row.cells kv.1 (match kv.2 with
            | Scalar.int n => toString n
            | Scalar.str s => s
            | Scalar.null => "null"))) := by
  have h2 : elemAt st.sample_data.metadata (mapGet st.sample_data_map sample_id) =
      some metadata := by
    rw [hidx]
    exact hmd
  have hrows : (updateData st sample_id).state.sample_metadata = metadataRows metadata := by
    cases h1 : elemAt st.sample_data.samples (mapGet st.sample_data_map sample_id) with
    | none =>
      rw [updateData_throw_first st sample_id h1] at h
      cases h
    | some sample =>
      rw [updateData_complete st sample_id sample metadata h1 h2]
  have hperm := Object_entries_perm metadata
  have hplain2 : ∀ kv ∈ Object_entries metadata,
      plainText kv.1 = true ∧ plainText kv.2.toText = true := by
    intro kv hkv
    have := hplain kv (hperm.mem_iff.mp hkv)
    rw [toText_eq]
    exact this
  have hshow : (fun kv : String × Scalar => Row.cells kv.1 kv.2.toText) =
      (fun kv => Row.cells kv.1 (match kv.2 with
        | Scalar.int n => toString n
        | Scalar.str s => s
        | Scalar.null => "null")) := by
    funext kv
    rw [toText_eq]
  have hclosed : (updateData st sample_id).state.sample_metadata =
      (Object_entries metadata).map (fun kv => Row.cells kv.1 (match kv.2 with
        | Scalar.int n => toString n
        | Scalar.str s => s
        | Scalar.null => "null")) := by
    rw [hrows, metadataRows, innerHTML_append_foldl _ _ hplain2, List.nil_append, hshow]
  refine ⟨?_, ?_, ?_⟩
  · rw [hclosed, List.length_map, hperm.length_eq]
    simp [ownProperties]
    omega
  · refine ⟨((ownProperties metadata).filter
      (fun kv => (arrayIndex kv.1).isSome)).insertionSort indexLE,
      List.perm_insertionSort indexLE _, ?_, ?_⟩
    · haveI : IsTotal (String × Scalar) indexLE := ⟨indexLE_total⟩
      haveI : IsTrans (String × Scalar) indexLE := ⟨indexLE_trans⟩
      exact List.sorted_insertionSort indexLE _
    · rw [hclosed]
      rfl
  · intro hnone
    have h1 : (ownProperties metadata).filter (fun kv => (arrayIndex kv.1).isSome) = [] := by
      apply List.filter_eq_nil_iff.mpr
      intro kv hkv
      simp [hnone kv hkv]
    have h3 : (ownProperties metadata).filter (fun kv => !(arrayIndex kv.1).isSome) =
        ownProperties metadata := by
      apply List.filter_eq_self.mpr
      intro kv hkv
      simp [hnone kv hkv]
    rw [hclosed, Object_entries, h1, h3]
    rfl

theorem updateData_metadata_rows_witness :
    (updateData indexedState 1).thrown = none ∧
    mapGet indexedState.sample_data_map 1 = some 0 ∧
    (updateData indexedState 1).state.sample_metadata =
      [Row.cells "7" "x", Row.cells "10" "3", Row.cells "ethnicity" "Caucasian",
        Row.cells "id" "1", Row.cells "age" "24", Row.cells "wfreq" "null"] ∧
    (updateData indexedState 1).state.sample_metadata.length = 2 + 1 + 3 ∧
    (updateData scenarioState 2).state.sample_metadata =
      [Row.cells "id" "2", Row.cells "gender" "F"] :=
  ⟨rfl, rfl, rfl,
    (updateData_metadata_rows indexedState 1 0
      { id := 1
        before := [("ethnicity", Scalar.str "Caucasian"), ("10", Scalar.int 3)]
        fields := [("7", Scalar.str "x"), ("age", Scalar.int 24), ("wfreq", Scalar.null)] }
      rfl rfl rfl (by decide)).1,
    rfl⟩

/-- C8 fails as stated: the record of `injected` has two fields, `id` and
`location`, and the value of `location` holds markup that closes its cell and
its row and opens another row; the table then holds the row of `id` followed
by what the parser builds from that fragment, not one row showing the value. -/
theorem markup_value_is_not_one_row :
    (updateData injectedState 1).thrown = none ∧
    (updateData injectedState 1).state.sample_metadata =
      [Row.cells "id" "1",
        Row.markup (rowTemplate "location" "NC</td></tr><tr><th>extra</th><td>row")] ∧
    (updateData injectedState 1).state.sample_metadata ≠
      [Row.cells "id" "1",
        Row.cells "location" "NC</td></tr><tr><th>extra</th><td>row"] := by
  refine ⟨rfl, rfl, ?_⟩
  decide

/-! ## C9 -/

/-- C9, as the code has it: in a state whose id-index map is the one `init`
builds from the metadata of the dataset, for a subject id that occurs in the
metadata and whose index is a valid position of `samples`, `updateData`
completes and the selector label is then exactly that id. -/
theorem updateData_label (st : State) (sample_id : Int)
    (hmap : st.sample_data_map =
      init_index st.sample_data.metadata st.sample_data.metadata.length [])
    (hid : ∃ r ∈ st.sample_data.metadata, r.id = sample_id)
    (hs : ∀ idx, mapGet st.sample_data_map sample_id = some idx →
      idx < st.sample_data.samples.length) :
    (updateData st sample_id).thrown = none ∧
    (updateData st sample_id).state.dropdownMenuButton1 = toString sample_id := by
  obtain ⟨r, hr, hrid⟩ := hid
  obtain ⟨i, hi⟩ := List.mem_iff_getElem?.mp hr
  obtain ⟨hilt, _⟩ := List.getElem?_eq_some.mp hi
  have hkey : sample_id ∈ mapKeys st.sample_data_map := by
    rw [hmap, mem_mapKeys_init_index]
    exact ⟨i, r, hilt, hi, hrid⟩
  obtain ⟨idx, hidx⟩ := (mem_mapKeys_iff _ _).mp hkey
  have hlast : LastAt st.sample_data.metadata st.sample_data.metadata.length sample_id idx := by
    have h := (init_index_inv st.sample_data.metadata st.sample_data.metadata.length
      (Nat.le_refl _)).2 sample_id idx
    rw [← hmap] at h
    exact h.mp hidx
  obtain ⟨_, ⟨m, hm, _⟩, _⟩ := hlast
  have hslt := hs idx hidx
  have h1 : elemAt st.sample_data.samples (mapGet st.sample_data_map sample_id) =
      some st.sample_data.samples[idx] := by
    rw [hidx]
    exact List.getElem?_eq_getElem hslt
  have h2 : elemAt st.sample_data.metadata (mapGet st.sample_data_map sample_id) = some m := by
    rw [hidx]
    exact hm
  rw [updateData_complete st sample_id _ m h1 h2]
  exact ⟨rfl, rfl⟩

theorem updateData_label_witness :
    scenarioState.sample_data_map =
      init_index scenarioState.sample_data.metadata
        scenarioState.sample_data.metadata.length [] ∧
    (∃ r ∈ scenarioState.sample_data.metadata, r.id = 2) ∧
    (∀ idx, mapGet scenarioState.sample_data_map 2 = some idx →
      idx < scenarioState.sample_data.samples.length) ∧
    (updateData scenarioState 2).thrown = none ∧
    (updateData scenarioState 2).state.dropdownMenuButton1 = toString (2 : Int) :=
  ⟨rfl, ⟨{ id := 2, fields := [("gender", Scalar.str "F")] }, by decide, rfl⟩,
    by decide,
    updateData_label scenarioState 2 rfl
      ⟨{ id := 2, fields := [("gender", Scalar.str "F")] }, by decide, rfl⟩ (by decide)⟩

/-- C9 fails as stated: the id 1 occurs in the metadata of `orphan`, whose
`samples` is empty; selecting it throws at the read of the sample record and
the selector label keeps its text `Select`. -/
theorem label_unchanged_without_sample :
    orphanState.sample_data = orphan ∧
    orphanState.sample_data_map = [(1, 0)] ∧
    (∃ r ∈ orphan.metadata, r.id = 1) ∧
    (updateData orphanState 1).thrown = some JSError.TypeError ∧
    (updateData orphanState 1).state.dropdownMenuButton1 = "Select" ∧
    (updateData orphanState 1).state.dropdownMenuButton1 ≠ toString (1 : Int) := by
  refine ⟨rfl, rfl, ⟨{ id := 1, fields := [] }, by decide, rfl⟩, rfl, rfl, ?_⟩
  decide

/-! ## C10 -/

/-- C10, as the code has it: for a subject id absent from the id-index map,
`updateData` does not complete; the read of `sample_values` on the missing
sample record throws a `TypeError` before any region of the page is written,
so the page is left as it was. -/
theorem updateData_unknown_id (st : State) (sample_id : Int)
    (h : mapGet st.sample_data_map sample_id = none) :
    updateData st sample_id = { state := st, thrown := some JSError.TypeError } := by
  apply updateData_throw_first
  rw [h]
  rfl

theorem updateData_unknown_id_witness :
    mapGet scenarioState.sample_data_map 7 = none ∧
    updateData scenarioState 7 =
      { state := scenarioState, thrown := some JSError.TypeError } :=
  ⟨rfl, updateData_unknown_id scenarioState 7 rfl⟩

/-- C10 fails as stated: the id 3 is absent from the id-index map of the
scenario, and `updateData` on it throws a `TypeError` and renders nothing. -/
theorem unknown_id_throws :
    mapGet scenarioState.sample_data_map 3 = none ∧
    (updateData scenarioState 3).thrown = some JSError.TypeError ∧
    (updateData scenarioState 3).thrown ≠ none ∧
    (updateData scenarioState 3).state = scenarioState := by
  refine ⟨rfl, rfl, ?_, rfl⟩
  intro h
  cases h

end BellyButton
